import Mathlib

set_option linter.unusedVariables false
set_option linter.unreachableTactic false
set_option linter.unusedTactic false

/-!
Verification of the paladin resource-lifecycle coordinator
(`paladin.go`).

The coordinator is embedded shallowly.  The concurrency of the Go code
is resolved by making the nondeterministic choices explicit inputs of
the model:

* the result of the single opener call (`openr : Except String H`,
  errors carried as their message strings);
* the event received at the single consolidation point
  `e := <-done` (`winner : event`), which in the Go code is produced
  either by the interruption listener or by the task wrapper;
* the closer's result as a function of the handle
  (`closr : H → Option String`).

The listener goroutine reads the head of the signal channel, whose
contents are the operating-system deliveries filtered by the
`signal.Notify(sig, os.Interrupt)` subscription; `ValidWinner` states
which `winner` events can actually reach the consolidation point for a
given list of delivered signals.

Besides the returned error and the updated `Paladin` state, the model
emits a trace of the observable actions of one `Run` call, in the
program order of the coordinator: opener call, guard release, runner
launch with its handle, the wait at the consolidation point, guard
re-acquisition, the conditional write of the `Signal` field, and the
closer call with its handle.  Temporal claims are stated as facts
about this trace; the guard state at any instant is recovered by
folding the trace (`guardAfter`).
-/

/-- Operating-system signals of the model.  The listener in `Run`
subscribes only to `interrupt` (`os.Interrupt` in the source); the
other constructors exist so that the subscription filter is a genuine
restriction. -/
inductive Sig where
  | interrupt
  | term
  | kill
deriving DecidableEq, Repr

/-- Mirror of the Go struct `event`: `os = true` for an
operating-system signal carried in `s`; `os = false` for the internal
task-finished event, whose `s` is the zero value (absent). -/
structure event where
  os : Bool
  s : Option Sig
deriving DecidableEq, Repr

/-- Mirror of the Go struct `Paladin`: the `Signal` field (nil when no
signal has occurred) and the state of the mutex `guard` as held by the
coordinator (`guardHeld = true` when the coordinator's side holds the
lock). -/
structure Paladin where
  Signal : Option Sig
  guardHeld : Bool
deriving DecidableEq, Repr

/-- `New` creates a new Paladin: `Signal` is nil and the guard is
acquired on behalf of the not-yet-started task (`p.Enter()`). -/
def New : Paladin :=
  { Signal := none, guardHeld := true }

/-- One observable action of a `Run` call, recorded in coordinator
program order. -/
inductive Act (H : Type) where
  | openCall
  | leaveGuard
  | startRunner (h : H)
  | waitEvent
  | enterGuard
  | setSignal (s : Option Sig)
  | closeCall (h : H)
deriving DecidableEq, Repr

/-- The nondeterministic choices of one `Run` call, made explicit. -/
structure RunInput (H : Type) where
  openr : Except String H
  closr : H → Option String
  winner : event

/-- What one `Run` call produces: the updated coordinator state, the
returned error, and the action trace. -/
structure RunResult (H : Type) where
  state : Paladin
  ret : Option String
  trace : List (Act H)

/-- The guard state (held by the coordinator) after executing a list
of actions, starting from guard state `g`: `Leave` releases it,
`Enter` re-acquires it, every other action keeps it. -/
def guardAfter {H : Type} (g : Bool) : List (Act H) → Bool
  | [] => g
  | Act.leaveGuard :: tr => guardAfter false tr
  | Act.enterGuard :: tr => guardAfter true tr
  | _ :: tr => guardAfter g tr

/-- Shallow embedding of `Run` (paladin.go lines 102-151).  After the
listener is installed, the opener is called; on failure `Run` returns
the wrapped message (`"Could not open: %v"`) at once, touching nothing
else.  On success the coordinator releases the guard, launches the
runner with the handle, blocks for the first event, re-acquires the
guard, stores the signal if the event was an operating-system one, and
returns the closer's result on the same handle. -/
def Run {H : Type} (p : Paladin) (inp : RunInput H) : RunResult H :=
  match inp.openr with
  | Except.error e =>
      { state := p
        ret := some ("Could not open: " ++ e)
        trace := [Act.openCall] }
  | Except.ok c =>
      let tr : List (Act H) :=
        [Act.openCall, Act.leaveGuard, Act.startRunner c,
         Act.waitEvent, Act.enterGuard]
        ++ (if inp.winner.os then [Act.setSignal inp.winner.s] else [])
        ++ [Act.closeCall c]
      { state :=
          { Signal := if inp.winner.os then inp.winner.s else p.Signal
            guardHeld := guardAfter p.guardHeld tr }
        ret := inp.closr c
        trace := tr }

/-- The subscription installed by `signal.Notify(sig, os.Interrupt)`:
only `os.Interrupt`. -/
def subscribed : List Sig :=
  [Sig.interrupt]

/-- The contents of the signal channel for a given list of raw
operating-system deliveries: `Notify` relays exactly the subscribed
signals, in order. -/
def sigChannel (delivered : List Sig) : List Sig :=
  delivered.filter (fun s => subscribed.contains s)

/-- The events that can win the race at `e := <-done` when the
operating system delivered `delivered`: either the task wrapper's
completion event (`os = false`, no signal), or the listener's event
carrying the first signal it reads from the channel. -/
def ValidWinner (delivered : List Sig) (e : event) : Prop :=
  (e.os = false ∧ e.s = none) ∨
  (e.os = true ∧ ∃ s, (sigChannel delivered).head? = some s ∧ e.s = some s)

/-- Iterated `Run` calls on one coordinator instance, threading the
state. -/
def runMany {H : Type} (p : Paladin) : List (RunInput H) → Paladin
  | [] => p
  | inp :: rest => runMany (Run p inp).state rest

/-- Recognizers for single action kinds, used to state trace
properties. -/
def isOpen {H : Type} : Act H → Bool
  | Act.openCall => true
  | _ => false

def isStart {H : Type} : Act H → Bool
  | Act.startRunner _ => true
  | _ => false

def isWait {H : Type} : Act H → Bool
  | Act.waitEvent => true
  | _ => false

def isEnter {H : Type} : Act H → Bool
  | Act.enterGuard => true
  | _ => false

def isSet {H : Type} : Act H → Bool
  | Act.setSignal _ => true
  | _ => false

def isClose {H : Type} : Act H → Bool
  | Act.closeCall _ => true
  | _ => false

/-- Position of the first action satisfying `f` in a trace. -/
def firstIdx {H : Type} (f : Act H → Bool) : List (Act H) → Option Nat
  | [] => none
  | a :: tr => if f a then some 0 else (firstIdx f tr).map (fun n => n + 1)

/-- Trace of a `Run` whose opener succeeds with handle `c`. -/
theorem Run_trace_ok {H : Type} (p : Paladin) (inp : RunInput H) (c : H)
    (hc : inp.openr = Except.ok c) :
    (Run p inp).trace =
      [Act.openCall, Act.leaveGuard, Act.startRunner c,
       Act.waitEvent, Act.enterGuard]
      ++ (if inp.winner.os then [Act.setSignal inp.winner.s] else [])
      ++ [Act.closeCall c] := by
  simp [Run, hc]

/-- State of a `Run` whose opener succeeds with handle `c`. -/
theorem Run_state_ok {H : Type} (p : Paladin) (inp : RunInput H) (c : H)
    (hc : inp.openr = Except.ok c) :
    (Run p inp).state.Signal
        = (if inp.winner.os then inp.winner.s else p.Signal)
      ∧ (Run p inp).state.guardHeld = true := by
  constructor
  · simp [Run, hc]
  · by_cases h : inp.winner.os <;> simp [Run, hc, h, guardAfter]

/-- Return value of a `Run` whose opener succeeds with handle `c`. -/
theorem Run_ret_ok {H : Type} (p : Paladin) (inp : RunInput H) (c : H)
    (hc : inp.openr = Except.ok c) :
    (Run p inp).ret = inp.closr c := by
  simp [Run, hc]

/-- Everything about a `Run` whose opener fails. -/
theorem Run_error {H : Type} (p : Paladin) (inp : RunInput H) (e : String)
    (he : inp.openr = Except.error e) :
    (Run p inp).state = p
      ∧ (Run p inp).ret = some ("Could not open: " ++ e)
      ∧ (Run p inp).trace = [Act.openCall] := by
  refine ⟨?_, ?_, ?_⟩ <;> simp [Run, he]

/-- An event produced by the interruption listener always carries
`os.Interrupt`: the listener hands on the first signal of the channel,
and `Notify` admits only subscribed signals into the channel. -/
theorem validWinner_os_interrupt (d : List Sig) (e : event)
    (hv : ValidWinner d e) (hos : e.os = true) :
    e.s = some Sig.interrupt := by
  rcases hv with ⟨h1, _⟩ | ⟨_, s, hs, hes⟩
  · rw [h1] at hos
    cases hos
  · have hmem : s ∈ sigChannel d := by
      cases hch : sigChannel d with
      | nil => rw [hch] at hs; cases hs
      | cons a tl =>
          rw [hch] at hs
          simp only [List.head?, Option.some_inj] at hs
          subst hs
          exact List.mem_cons_self a tl
    have hsub : (fun s => subscribed.contains s) s = true :=
      (List.mem_filter.mp hmem).2
    cases s with
    | interrupt => exact hes
    | term => simp [subscribed] at hsub
    | kill => simp [subscribed] at hsub

/-- C1: whenever the opener succeeds, the closer is called exactly
once in the run, whatever list of interruptions the operating system
delivered and whichever valid event won the race. -/
theorem run_closer_exactly_once {H : Type} (p : Paladin) (inp : RunInput H)
    (delivered : List Sig) (c : H)
    (hc : inp.openr = Except.ok c)
    (hv : ValidWinner delivered inp.winner) :
    (Run p inp).trace.countP isClose = 1 := by
  rw [Run_trace_ok p inp c hc]
  by_cases h : inp.winner.os <;>
    simp [h, List.countP_append, List.countP_cons, isClose]

/-- C2: when the opener succeeds, the opener call is the first action,
the sole guard re-acquisition happens at position 4, and the sole
closer call happens strictly later (position 5, or 6 when a signal is
recorded first); hence the closer runs only after the opener has
returned and the guard has been re-acquired. -/
theorem run_closer_after_reacquire {H : Type} (p : Paladin)
    (inp : RunInput H) (c : H)
    (hc : inp.openr = Except.ok c) :
    firstIdx isOpen (Run p inp).trace = some 0
      ∧ firstIdx isEnter (Run p inp).trace = some 4
      ∧ firstIdx isClose (Run p inp).trace
          = some (if inp.winner.os then 6 else 5)
      ∧ (Run p inp).trace.countP isEnter = 1
      ∧ (Run p inp).trace.countP isClose = 1 := by
  rw [Run_trace_ok p inp c hc]
  by_cases h : inp.winner.os <;>
    refine ⟨?_, ?_, ?_, ?_, ?_⟩ <;>
      simp [h, firstIdx, isOpen, isEnter, isClose,
            List.countP_append, List.countP_cons]

/-- C3: when the opener fails, `Run` returns the failing cause wrapped
with the "Could not open" context, the runner is never started, the
closer is never invoked and the coordinator state (in particular the
guard) is untouched; and this is the only early exit: whenever the
opener succeeds, the run reaches the closer call. -/
theorem run_open_failure {H : Type} (p : Paladin) (inp : RunInput H) :
    (∀ e, inp.openr = Except.error e →
        (Run p inp).ret = some ("Could not open: " ++ e)
          ∧ (Run p inp).state = p
          ∧ (Run p inp).trace.countP isStart = 0
          ∧ (Run p inp).trace.countP isClose = 0
          ∧ (Run p inp).state.guardHeld = p.guardHeld)
      ∧ (∀ c, inp.openr = Except.ok c →
          Act.closeCall c ∈ (Run p inp).trace) := by
  constructor
  · intro e he
    obtain ⟨h1, h2, h3⟩ := Run_error p inp e he
    refine ⟨h2, h1, ?_, ?_, by rw [h1]⟩ <;>
      simp [h3, List.countP_cons, isStart, isClose]
  · intro c hc
    rw [Run_trace_ok p inp c hc]
    by_cases h : inp.winner.os <;> simp [h]

/-- C4: the guard is held right after `New`; it is held again whenever
`Run` returns if it was held when `Run` was called; on a successful
open the coordinator's hold lapses exactly over the window from the
release after the opener returned (position 2 of the trace) up to the
re-acquisition (position 4, just before any signal write and the
closer call); on a failed open it never lapses. -/
theorem guard_held_invariant {H : Type} (p : Paladin) (inp : RunInput H) :
    New.guardHeld = true
      ∧ (p.guardHeld = true → (Run p inp).state.guardHeld = true)
      ∧ (∀ c, inp.openr = Except.ok c →
          ∀ k, (guardAfter true ((Run p inp).trace.take k) = false
                 ↔ (2 ≤ k ∧ k ≤ 4)))
      ∧ (∀ e, inp.openr = Except.error e →
          ∀ k, guardAfter true ((Run p inp).trace.take k) = true) := by
  refine ⟨rfl, ?_, ?_, ?_⟩
  · intro hp
    cases hop : inp.openr with
    | error e => rw [(Run_error p inp e hop).1, hp]
    | ok c => exact (Run_state_ok p inp c hop).2
  · intro c hc k
    rw [Run_trace_ok p inp c hc]
    by_cases h : inp.winner.os <;>
      simp only [h, if_true, if_false, List.cons_append, List.nil_append] <;>
      rcases k with _ | _ | _ | _ | _ | _ | _ | k <;>
      simp [List.take_succ_cons, List.take_of_length_le, guardAfter] <;>
      omega
  · intro e he k
    rw [(Run_error p inp e he).2.2]
    rcases k with _ | k <;> simp [List.take_succ_cons,
      List.take_of_length_le, guardAfter]

/-- C5: if the winning event is an interruption its identity is stored
in the `Signal` field; if the winning event is the task completion the
field keeps its previous value; and `New` initializes the field to
nil. -/
theorem run_signal_recording {H : Type} (p : Paladin) (inp : RunInput H)
    (c : H) (hc : inp.openr = Except.ok c) :
    (inp.winner.os = true → (Run p inp).state.Signal = inp.winner.s)
      ∧ (inp.winner.os = false → (Run p inp).state.Signal = p.Signal)
      ∧ New.Signal = none := by
  refine ⟨?_, ?_, rfl⟩ <;> intro h <;>
    rw [(Run_state_ok p inp c hc).1, h] <;> simp

/-- C6: `Run` returns the wrapped acquisition error when the opener
fails, and otherwise exactly the closer's result on the handle — in
particular no error at all when opener and closer both succeed,
whether or not an interruption occurred. -/
theorem run_return_value {H : Type} (p : Paladin) (inp : RunInput H) :
    (∀ e, inp.openr = Except.error e →
        (Run p inp).ret = some ("Could not open: " ++ e))
      ∧ (∀ c, inp.openr = Except.ok c → (Run p inp).ret = inp.closr c) := by
  constructor
  · intro e he
    exact (Run_error p inp e he).2.1
  · intro c hc
    exact Run_ret_ok p inp c hc

/-- C7: when an interruption wins the race and the closer then fails,
`Run` still returns (with the closer's error as its result), the
interruption is recorded in `Signal`, the `Signal` write happens in
the trace strictly before the closer call, and the recorded value does
not depend on the closer at all. -/
theorem run_interrupt_closer_failure {H : Type} (p : Paladin)
    (inp : RunInput H) (c : H) (msg : String)
    (hc : inp.openr = Except.ok c)
    (hos : inp.winner.os = true)
    (hcl : inp.closr c = some msg) :
    (Run p inp).ret = some msg
      ∧ (Run p inp).state.Signal = inp.winner.s
      ∧ firstIdx isSet (Run p inp).trace = some 5
      ∧ firstIdx isClose (Run p inp).trace = some 6
      ∧ (Run p inp).trace.countP isClose = 1
      ∧ (∀ closr2 : H → Option String,
          (Run p { inp with closr := closr2 }).state.Signal
            = inp.winner.s) := by
  refine ⟨?_, ?_, ?_, ?_, ?_, ?_⟩
  · rw [Run_ret_ok p inp c hc, hcl]
  · rw [(Run_state_ok p inp c hc).1, hos]
    simp
  · rw [Run_trace_ok p inp c hc, hos]
    simp [firstIdx, isSet, isOpen, isClose]
  · rw [Run_trace_ok p inp c hc, hos]
    simp [firstIdx, isSet, isClose]
  · rw [Run_trace_ok p inp c hc, hos]
    simp [List.countP_append, List.countP_cons, isClose]
  · intro closr2
    have hc2 : ({ inp with closr := closr2 } : RunInput H).openr
        = Except.ok c := hc
    rw [(Run_state_ok p { inp with closr := closr2 } c hc2).1]
    simp only [hos, if_true]

/-- Concrete run inputs used by the closed instance theorems. -/
def inpDone : RunInput Nat :=
  { openr := Except.ok 42, closr := fun _ => none,
    winner := { os := false, s := none } }

def inpIntr : RunInput Nat :=
  { openr := Except.ok 7, closr := fun _ => some "close failed",
    winner := { os := true, s := some Sig.interrupt } }

def inpOpenFail : RunInput Nat :=
  { openr := Except.error "boom", closr := fun _ => none,
    winner := { os := false, s := none } }

/-- C8 counterexample: in the run whose opener fails, no event at all
is consulted — `Run` returns before the wait at the consolidation
point — so it is false that every invocation of `Run` consults exactly
one event. -/
theorem run_no_event_consulted_on_open_failure :
    ¬ ((Run New inpOpenFail).trace.countP isWait = 1) := by
  decide

/-- C8 (amended): in every invocation of `Run` whose opener succeeds,
exactly one event is consulted at the consolidation point — the losing
emitter's event is never awaited. -/
theorem run_exactly_one_event {H : Type} (p : Paladin) (inp : RunInput H)
    (c : H) (hc : inp.openr = Except.ok c) :
    (Run p inp).trace.countP isWait = 1 := by
  rw [Run_trace_ok p inp c hc]
  by_cases h : inp.winner.os <;>
    simp [h, List.countP_append, List.countP_cons, isWait]

/-- C9: the runner is started exactly once, with the handle the opener
produced, and the closer is called exactly once, with that same
handle; no other handle ever appears in a runner launch or a closer
call of the run. -/
theorem run_handle_threading {H : Type} (p : Paladin) (inp : RunInput H)
    (c : H) (hc : inp.openr = Except.ok c) :
    Act.startRunner c ∈ (Run p inp).trace
      ∧ Act.closeCall c ∈ (Run p inp).trace
      ∧ (∀ h, Act.startRunner h ∈ (Run p inp).trace → h = c)
      ∧ (∀ h, Act.closeCall h ∈ (Run p inp).trace → h = c)
      ∧ (Run p inp).trace.countP isStart = 1
      ∧ (Run p inp).trace.countP isClose = 1 := by
  rw [Run_trace_ok p inp c hc]
  by_cases h : inp.winner.os <;>
    refine ⟨?_, ?_, ?_, ?_, ?_, ?_⟩ <;>
      simp [h, List.countP_append, List.countP_cons, isStart, isClose] <;>
      intro x hx <;> simp_all

/-- Invariant carried through iterated runs: a `Signal` that is nil or
`os.Interrupt` stays nil or `os.Interrupt` when every run's winning
event is one the listener or the task wrapper can actually produce. -/
theorem runMany_signal_inv {H : Type} (l : List (RunInput H))
    (p : Paladin)
    (hp : p.Signal = none ∨ p.Signal = some Sig.interrupt)
    (hv : ∀ inp ∈ l, ∃ d, ValidWinner d inp.winner) :
    (runMany p l).Signal = none
      ∨ (runMany p l).Signal = some Sig.interrupt := by
  induction l generalizing p with
  | nil => simpa [runMany] using hp
  | cons inp rest ih =>
      have hstep : (Run p inp).state.Signal = none
          ∨ (Run p inp).state.Signal = some Sig.interrupt := by
        rcases hv inp (List.mem_cons_self inp rest) with ⟨d, hvw⟩
        cases hop : inp.openr with
        | error e => rw [(Run_error p inp e hop).1]; exact hp
        | ok c =>
            by_cases hos : inp.winner.os = true
            · right
              rw [(Run_state_ok p inp c hop).1, if_pos hos]
              exact validWinner_os_interrupt d inp.winner hvw hos
            · rw [(Run_state_ok p inp c hop).1, if_neg hos]
              exact hp
      have hrest : ∀ i ∈ rest, ∃ d, ValidWinner d i.winner := by
        intro i hi
        exact hv i (List.mem_cons_of_mem inp hi)
      simpa [runMany] using ih (Run p inp).state hstep hrest

/-- C10: starting from `New`, after any number of `Run` invocations
whose winning events the two emitters can produce, the `Signal` field
is nil or `os.Interrupt` — the listener subscribes to nothing else, so
no other signal identity can ever be recorded. -/
theorem run_signal_only_interrupt {H : Type} (l : List (RunInput H))
    (hv : ∀ inp ∈ l, ∃ d, ValidWinner d inp.winner) :
    (runMany New l).Signal = none
      ∨ (runMany New l).Signal = some Sig.interrupt := by
  exact runMany_signal_inv l New (Or.inl rfl) hv

/-- Closed instance of C1 at a concrete interrupted run. -/
theorem run_closer_exactly_once_witness :
    (Run New inpIntr).trace.countP isClose = 1 :=
  run_closer_exactly_once New inpIntr [Sig.interrupt, Sig.term] 7 rfl
    (Or.inr ⟨rfl, Sig.interrupt, by decide, rfl⟩)

/-- Closed instance of C2 at a concrete completed run. -/
theorem run_closer_after_reacquire_witness :
    firstIdx isOpen (Run New inpDone).trace = some 0
      ∧ firstIdx isEnter (Run New inpDone).trace = some 4
      ∧ firstIdx isClose (Run New inpDone).trace
          = some (if inpDone.winner.os then 6 else 5)
      ∧ (Run New inpDone).trace.countP isEnter = 1
      ∧ (Run New inpDone).trace.countP isClose = 1 :=
  run_closer_after_reacquire New inpDone 42 rfl

/-- Closed instance of C3 at a concrete failing opener. -/
theorem run_open_failure_witness :
    (Run New inpOpenFail).ret = some ("Could not open: " ++ "boom") :=
  ((run_open_failure New inpOpenFail).1 "boom" rfl).1

/-- Closed instance of C4: three actions into a successful run the
coordinator's hold of the guard has lapsed. -/
theorem guard_held_invariant_witness :
    guardAfter true ((Run New inpDone).trace.take 3) = false :=
  ((guard_held_invariant New inpDone).2.2.1 42 rfl 3).mpr (by decide)

/-- Closed instance of C5 at a concrete interrupted run. -/
theorem run_signal_recording_witness :
    (Run New inpIntr).state.Signal = inpIntr.winner.s :=
  (run_signal_recording New inpIntr 7 rfl).1 rfl

/-- Closed instance of C6 at a concrete completed run. -/
theorem run_return_value_witness :
    (Run New inpDone).ret = inpDone.closr 42 :=
  (run_return_value New inpDone).2 42 rfl

/-- Closed instance of C7 at a concrete interrupted run whose closer
fails. -/
theorem run_interrupt_closer_failure_witness :
    (Run New inpIntr).ret = some "close failed"
      ∧ (Run New inpIntr).state.Signal = inpIntr.winner.s :=
  ⟨(run_interrupt_closer_failure New inpIntr 7 "close failed"
      rfl rfl rfl).1,
   (run_interrupt_closer_failure New inpIntr 7 "close failed"
      rfl rfl rfl).2.1⟩

/-- Closed instance of the amended C8 at a concrete completed run. -/
theorem run_exactly_one_event_witness :
    (Run New inpDone).trace.countP isWait = 1 :=
  run_exactly_one_event New inpDone 42 rfl

/-- Closed instance of C9 at a concrete completed run. -/
theorem run_handle_threading_witness :
    Act.startRunner 42 ∈ (Run New inpDone).trace :=
  (run_handle_threading New inpDone 42 rfl).1

/-- Closed instance of C10 after one interrupted run. -/
theorem run_signal_only_interrupt_witness :
    (runMany New [inpIntr]).Signal = none
      ∨ (runMany New [inpIntr]).Signal = some Sig.interrupt :=
  run_signal_only_interrupt [inpIntr] (by
    intro i hi
    rw [List.mem_singleton] at hi
    subst hi
    exact ⟨[Sig.interrupt], Or.inr ⟨rfl, Sig.interrupt, by decide, rfl⟩⟩)
